import Mathlib

/-!
Verification development for the WASM type-inference runtime layer
(`src/lib/wasmInterface.ts`) and its companion hooks: the request/response
codec, the instance pool and concurrency limiter, the engine facade
(`updateWasmSource`, `runInference`, `runSubtyping`, `getMetadata`), the
credential header builder, and the single-flight grammar cache of the
Monaco editor component.

The JavaScript/TypeScript code is shallowly embedded: pure fragments become
Lean functions; the stateful engine methods become explicit state-passing
functions over an `EngineS` record, with the outcomes of the external
effects (network fetch + compile, `WebAssembly.instantiate`, `wasi.start`,
the bytes the instance writes to stdout) supplied as oracle parameters.
Cooperative (async/await) interleaving is modelled by treating each
synchronous segment between `await` points as atomic.
-/

namespace TypHow

/-! ## JSON values and `JSON.parse`

`runInference` / `runSubtyping` / `getMetadata` decode the accumulated
stdout buffer with `JSON.parse`.  We embed JSON values as an inductive
type; numbers are kept exactly as sign, mantissa digits and a decimal
exponent (JS number truthiness only needs `mantissa = 0`). -/

inductive Json where
  | null
  | bool (b : Bool)
  | num (neg : Bool) (mant : Nat) (fexp : Int)
  | str (s : String)
  | arr (elems : List Json)
  | obj (fields : List (String × Json))
deriving Repr

mutual

/-- Boolean structural equality of JSON values. -/
def jsonBeq : Json → Json → Bool
  | Json.null, Json.null => true
  | Json.bool a, Json.bool b => a == b
  | Json.num n1 m1 e1, Json.num n2 m2 e2 => n1 == n2 && m1 == m2 && e1 == e2
  | Json.str a, Json.str b => a == b
  | Json.arr xs, Json.arr ys => jsonBeqList xs ys
  | Json.obj fs, Json.obj gs => jsonBeqFields fs gs
  | _, _ => false

/-- Boolean equality of JSON value lists. -/
def jsonBeqList : List Json → List Json → Bool
  | [], [] => true
  | x :: xs, y :: ys => jsonBeq x y && jsonBeqList xs ys
  | _, _ => false

/-- Boolean equality of JSON object field lists. -/
def jsonBeqFields : List (String × Json) → List (String × Json) → Bool
  | [], [] => true
  | (k1, v1) :: fs, (k2, v2) :: gs => k1 == k2 && jsonBeq v1 v2 && jsonBeqFields fs gs
  | _, _ => false

end

mutual

theorem jsonBeq_refl : ∀ a, jsonBeq a a = true
  | Json.null => rfl
  | Json.bool _ => by simp [jsonBeq]
  | Json.num _ _ _ => by simp [jsonBeq]
  | Json.str _ => by simp [jsonBeq]
  | Json.arr xs => by simpa [jsonBeq] using jsonBeqList_refl xs
  | Json.obj fs => by simpa [jsonBeq] using jsonBeqFields_refl fs

theorem jsonBeqList_refl : ∀ xs, jsonBeqList xs xs = true
  | [] => rfl
  | x :: xs => by simp [jsonBeqList, jsonBeq_refl x, jsonBeqList_refl xs]

theorem jsonBeqFields_refl : ∀ fs, jsonBeqFields fs fs = true
  | [] => rfl
  | (_, v) :: fs => by simp [jsonBeqFields, jsonBeq_refl v, jsonBeqFields_refl fs]

end

mutual

theorem jsonBeq_eq : ∀ a b, jsonBeq a b = true → a = b
  | Json.null, b, h => by cases b <;> simp_all [jsonBeq]
  | Json.bool _, b, h => by cases b <;> simp_all [jsonBeq]
  | Json.num _ _ _, b, h => by cases b <;> simp_all [jsonBeq]
  | Json.str _, b, h => by cases b <;> simp_all [jsonBeq]
  | Json.arr xs, Json.arr ys, h => by
    simp only [jsonBeq] at h
    cases jsonBeqList_eq xs ys h
    rfl
  | Json.arr _, Json.null, h => by simp [jsonBeq] at h
  | Json.arr _, Json.bool _, h => by simp [jsonBeq] at h
  | Json.arr _, Json.num _ _ _, h => by simp [jsonBeq] at h
  | Json.arr _, Json.str _, h => by simp [jsonBeq] at h
  | Json.arr _, Json.obj _, h => by simp [jsonBeq] at h
  | Json.obj fs, Json.obj gs, h => by
    simp only [jsonBeq] at h
    cases jsonBeqFields_eq fs gs h
    rfl
  | Json.obj _, Json.null, h => by simp [jsonBeq] at h
  | Json.obj _, Json.bool _, h => by simp [jsonBeq] at h
  | Json.obj _, Json.num _ _ _, h => by simp [jsonBeq] at h
  | Json.obj _, Json.str _, h => by simp [jsonBeq] at h
  | Json.obj _, Json.arr _, h => by simp [jsonBeq] at h

theorem jsonBeqList_eq : ∀ xs ys, jsonBeqList xs ys = true → xs = ys
  | [], [], _ => rfl
  | [], _ :: _, h => by simp [jsonBeqList] at h
  | _ :: _, [], h => by simp [jsonBeqList] at h
  | x :: xs, y :: ys, h => by
    simp only [jsonBeqList, Bool.and_eq_true] at h
    cases jsonBeq_eq x y h.1
    cases jsonBeqList_eq xs ys h.2
    rfl

theorem jsonBeqFields_eq : ∀ fs gs, jsonBeqFields fs gs = true → fs = gs
  | [], [], _ => rfl
  | [], _ :: _, h => by simp [jsonBeqFields] at h
  | _ :: _, [], h => by simp [jsonBeqFields] at h
  | (k1, v1) :: fs, (k2, v2) :: gs, h => by
    simp only [jsonBeqFields, Bool.and_eq_true, beq_iff_eq] at h
    cases h.1.1
    cases jsonBeq_eq v1 v2 h.1.2
    cases jsonBeqFields_eq fs gs h.2
    rfl

end

instance : DecidableEq Json := fun a b =>
  if h : jsonBeq a b = true then isTrue (jsonBeq_eq a b h)
  else isFalse (fun he => h (he ▸ jsonBeq_refl a))

/-- JSON whitespace characters (the four accepted by `JSON.parse`). -/
def jsonWs (c : Char) : Bool :=
  c = ' ' || c = '\t' || c = '\n' || c = '\r'

/-- Drop leading JSON whitespace. -/
def skipWs : List Char → List Char
  | [] => []
  | c :: cs => if jsonWs c then skipWs cs else c :: cs

/-- Value of one hexadecimal digit. -/
def hexDigitVal (c : Char) : Option Nat :=
  if '0' ≤ c ∧ c ≤ '9' then some (c.toNat - '0'.toNat)
  else if 'a' ≤ c ∧ c ≤ 'f' then some (c.toNat - 'a'.toNat + 10)
  else if 'A' ≤ c ∧ c ≤ 'F' then some (c.toNat - 'A'.toNat + 10)
  else none

/-- Single-character string escapes accepted by JSON. -/
def escChar (c : Char) : Option Char :=
  if c = '"' then some '"'
  else if c = '\\' then some '\\'
  else if c = '/' then some '/'
  else if c = 'b' then some (Char.ofNat 8)
  else if c = 'f' then some (Char.ofNat 12)
  else if c = 'n' then some '\n'
  else if c = 'r' then some '\r'
  else if c = 't' then some '\t'
  else none

/-- Parse the body of a JSON string after the opening quote; returns the
decoded characters and the input remaining after the closing quote.
Fuelled; each step consumes at least one input character. -/
def parseStringBody : Nat → List Char → Option (List Char × List Char)
  | 0, _ => none
  | _, [] => none
  | fuel + 1, c :: cs =>
    if c = '"' then some ([], cs)
    else if c = '\\' then
      match cs with
      | [] => none
      | e :: cs2 =>
        if e = 'u' then
          match cs2 with
          | h1 :: h2 :: h3 :: h4 :: cs3 => do
            let d1 ← hexDigitVal h1
            let d2 ← hexDigitVal h2
            let d3 ← hexDigitVal h3
            let d4 ← hexDigitVal h4
            let (body, rest) ← parseStringBody fuel cs3
            some (Char.ofNat (((d1 * 16 + d2) * 16 + d3) * 16 + d4) :: body, rest)
          | _ => none
        else do
          let ec ← escChar e
          let (body, rest) ← parseStringBody fuel cs2
          some (ec :: body, rest)
    else if c.toNat < 32 then none
    else do
      let (body, rest) ← parseStringBody fuel cs
      some (c :: body, rest)

/-- Numeric value of a digit sequence. -/
def digitsVal (ds : List Char) : Nat :=
  ds.foldl (fun a c => a * 10 + (c.toNat - '0'.toNat)) 0

/-- Optional fraction part `.digits` of a JSON number. -/
def parseFrac (cs : List Char) : Option (List Char × List Char) :=
  match cs with
  | '.' :: r =>
    let (f, r2) := r.span Char.isDigit
    if f.isEmpty then none else some (f, r2)
  | _ => some ([], cs)

/-- Optional exponent part `e[+-]digits` of a JSON number. -/
def parseExp (cs : List Char) : Option (Int × List Char) :=
  match cs with
  | c :: r =>
    if c = 'e' ∨ c = 'E' then
      let (esign, r2) : Int × List Char :=
        match r with
        | '+' :: t => (1, t)
        | '-' :: t => (-1, t)
        | t => (1, t)
      let (eds, r3) := r2.span Char.isDigit
      if eds.isEmpty then none else some (esign * (digitsVal eds : Int), r3)
    else some (0, c :: r)
  | [] => some (0, [])

/-- Parse a JSON number (integer part with no leading zeros, optional
fraction, optional exponent). -/
def parseNumber (cs : List Char) : Option (Json × List Char) :=
  let (neg, cs1) :=
    match cs with
    | '-' :: r => (true, r)
    | _ => (false, cs)
  let (ids, cs2) := cs1.span Char.isDigit
  if ids.isEmpty then none
  else if ids.head? = some '0' ∧ 1 < ids.length then none
  else do
    let (fds, cs3) ← parseFrac cs2
    let (e, cs4) ← parseExp cs3
    some (Json.num neg (digitsVal (ids ++ fds)) (e - (fds.length : Int)), cs4)

/-- Match a literal suffix (`rue`, `alse`, `ull`). -/
def stripLit : List Char → List Char → Option (List Char)
  | [], cs => some cs
  | _ :: _, [] => none
  | l :: ls, c :: cs => if c = l then stripLit ls cs else none

mutual

/-- Parse one JSON value (after optional leading whitespace). -/
def parseVal : Nat → List Char → Option (Json × List Char)
  | 0, _ => none
  | fuel + 1, cs0 =>
    let cs := skipWs cs0
    match cs with
    | [] => none
    | c :: rest =>
      if c = '{' then
        match skipWs rest with
        | '}' :: r => some (Json.obj [], r)
        | rest2 => do
          let (fs, r) ← parseMembers fuel rest2
          some (Json.obj fs, r)
      else if c = '[' then
        match skipWs rest with
        | ']' :: r => some (Json.arr [], r)
        | rest2 => do
          let (xs, r) ← parseElems fuel rest2
          some (Json.arr xs, r)
      else if c = '"' then do
        let (body, r) ← parseStringBody (rest.length + 1) rest
        some (Json.str (String.mk body), r)
      else if c = 't' then do
        let r ← stripLit ['r', 'u', 'e'] rest
        some (Json.bool true, r)
      else if c = 'f' then do
        let r ← stripLit ['a', 'l', 's', 'e'] rest
        some (Json.bool false, r)
      else if c = 'n' then do
        let r ← stripLit ['u', 'l', 'l'] rest
        some (Json.null, r)
      else parseNumber (c :: rest)

/-- Parse the members of a JSON object after `{` (at least one member). -/
def parseMembers : Nat → List Char → Option (List (String × Json) × List Char)
  | 0, _ => none
  | fuel + 1, cs0 =>
    match skipWs cs0 with
    | '"' :: r => do
      let (keyChars, r2) ← parseStringBody (r.length + 1) r
      match skipWs r2 with
      | ':' :: r4 => do
        let (v, r5) ← parseVal fuel r4
        match skipWs r5 with
        | ',' :: r7 => do
          let (fs, r8) ← parseMembers fuel r7
          some ((String.mk keyChars, v) :: fs, r8)
        | '}' :: r7 => some ([(String.mk keyChars, v)], r7)
        | _ => none
      | _ => none
    | _ => none

/-- Parse the elements of a JSON array after `[` (at least one element). -/
def parseElems : Nat → List Char → Option (List Json × List Char)
  | 0, _ => none
  | fuel + 1, cs0 => do
    let (v, r) ← parseVal fuel cs0
    match skipWs r with
    | ',' :: r3 => do
      let (xs, r4) ← parseElems fuel r3
      some (v :: xs, r4)
    | ']' :: r3 => some ([v], r3)
    | _ => none

end

/-- Model of `JSON.parse`: parse a complete JSON document, rejecting trailing
garbage. `none` models a thrown `SyntaxError`. -/
def parseJson (s : String) : Option Json :=
  match parseVal (s.length + 1) s.toList with
  | some (v, rest) => if (skipWs rest).isEmpty then some v else none
  | none => none

/-! ## JavaScript value helpers -/

/-- JS truthiness of a JSON value (`null`, `false`, `0`, `""` are falsy). -/
def jsTruthy : Json → Bool
  | Json.null => false
  | Json.bool b => b
  | Json.num _ mant _ => mant != 0
  | Json.str s => s != ""
  | Json.arr _ => true
  | Json.obj _ => true

/-- Property lookup on a parsed object: `JSON.parse` keeps the last
occurrence of a duplicated key, so the last binding wins.  `none` models
the JS value `undefined` (property absent or receiver not an object);
property access on `null` itself is handled separately since it throws. -/
def jsGetField : Json → String → Option Json
  | Json.obj fields, k =>
    fields.foldl (fun acc kv => if kv.1 = k then some kv.2 else acc) none
  | _, _ => none

/-- Model of `String.prototype.trim`: strip whitespace from both ends (restricted
to the ASCII whitespace characters that can occur in the buffers here). -/
def jsTrim (s : String) : String :=
  String.mk (((s.toList.dropWhile Char.isWhitespace).reverse.dropWhile Char.isWhitespace).reverse)

/-- Remove trailing (but not leading) whitespace, used to state the spec
wording "trim trailing whitespace" for comparison with the code's
`String.prototype.trim`, which strips both ends. -/
def trimTrailing (s : String) : String :=
  String.mk ((s.toList.reverse.dropWhile Char.isWhitespace).reverse)

/-! ## Response shapes and the run-output decoder

`InferenceResponse` and `SubtypingResponse` are structurally identical
interfaces in the source; we share one structure. -/

structure InferenceResponse where
  success : Bool
  result : Option Json := none
  error : Option String := none
  steps : Option Json := none
deriving DecidableEq, Repr

abbrev SubtypingResponse := InferenceResponse

/-- The text fallback `\x7bsuccess: true, result: \x7btype: output\x7d, steps: []\x7d`. -/
def textFallback (output : String) : InferenceResponse :=
  { success := true
    result := some (Json.obj [("type", Json.str output)])
    steps := some (Json.arr []) }

/-- Decoder of `runInference` / `runSubtyping` (the code is duplicated
verbatim in both methods): trim the buffer with `.trim()` (both ends),
`JSON.parse` it; on success return `\x7bsuccess: true, result, steps: result.steps || []\x7d`.
Reading `.steps` of a parsed `null` throws a `TypeError`, which the same
`catch` turns into the text fallback, as does a parse failure. -/
def decodeRunOutput (raw : String) : InferenceResponse :=
  let output := jsTrim raw
  match parseJson output with
  | some Json.null => textFallback output
  | some v =>
    let stepsVal :=
      match jsGetField v "steps" with
      | some s => if jsTruthy s then s else Json.arr []
      | none => Json.arr []
    { success := true, result := some v, steps := some stepsVal }
  | none => textFallback output

/-- Decoder as worded by the claim for C5: trailing-only trim, and
`steps: parsedValue.steps ?? []` (nullish coalescing), with the success
wrap applied whenever parsing succeeds.  Kept solely to compare against
`decodeRunOutput`, the decoder translated from the code. -/
def decodeRunOutputClaim (raw : String) : InferenceResponse :=
  let output := trimTrailing raw
  match parseJson output with
  | some v =>
    let stepsVal :=
      match jsGetField v "steps" with
      | some s => if s = Json.null then Json.arr [] else s
      | none => Json.arr []
    { success := true, result := some v, steps := some stepsVal }
  | none => textFallback output

/-- Decoder of `getMetadata`: trim, `JSON.parse`; a parse failure is
escalated (`throw new Error(...)`), modelled as `Except.error`. -/
def decodeMetaOutput (raw : String) : Except String Json :=
  match parseJson (jsTrim raw) with
  | some v => Except.ok v
  | none => Except.error "Failed to parse metadata JSON from WASM"

/-! ## Source descriptors and requests -/

inductive AuthType where
  | none
  | bearer
  | basic
  | header
  | presigned
deriving DecidableEq, Repr

/-- The `WasmSource` descriptor.  Optional TS fields become `Option`s;
`authType` is `Option AuthType` since the field itself is optional. -/
structure WasmSource where
  id : String
  name : String
  url : String
  authType : Option AuthType := Option.none
  authToken : Option String := Option.none
  authHeader : Option String := Option.none
  authUsername : Option String := Option.none
  authPassword : Option String := Option.none
  isLocal : Option Bool := Option.none
  createdAt : Nat
  lastUpdated : Option String := Option.none
deriving DecidableEq, Repr

structure RequestOptions where
  showSteps : Option Bool := none
  maxDepth : Option Nat := none
deriving DecidableEq, Repr

structure InferenceRequest where
  algorithm : String
  variant : Option String := none
  expression : String
  options : Option RequestOptions := none
deriving DecidableEq, Repr

/-- Field `variant` is a required `string` in the TS `SubtypingRequest`. -/
structure SubtypingRequest where
  algorithm : String
  variant : String
  leftType : String
  rightType : String
  options : Option RequestOptions := none
deriving DecidableEq, Repr

/-! ## Request encoding (`argv` construction) -/

/-- Argument vector of `runInference`: the JS conditional
`request.variant ? [... '--variant', v ...] : [...]` tests truthiness, so
an absent or empty variant takes the branch without `--variant`. -/
def encodeInference (r : InferenceRequest) : List String :=
  match r.variant with
  | some v =>
    if v = "" then ["infer", "--typing", r.algorithm, r.expression]
    else ["infer", "--typing", r.algorithm, "--variant", v, r.expression]
  | none => ["infer", "--typing", r.algorithm, r.expression]

/-- Argument vector of `runSubtyping`; same truthiness test on `variant`. -/
def encodeSubtyping (r : SubtypingRequest) : List String :=
  if r.variant = "" then ["infer", "--subtyping", r.algorithm, r.leftType, r.rightType]
  else ["infer", "--subtyping", r.algorithm, "--variant", r.variant, r.leftType, r.rightType]

/-- Argument vector of `getMetadata`. -/
def encodeMetadata : List String := ["infer", "--meta"]

/-- The inference argv as worded by claim C6: `--variant, variant`
inserted before the expression iff a variant is present (i.e. iff the
optional field is supplied).  Kept solely for comparison with
`encodeInference`, the encoder translated from the code. -/
def encodeInferenceClaim (r : InferenceRequest) : List String :=
  ["infer", "--typing", r.algorithm] ++
    (match r.variant with
     | some v => ["--variant", v]
     | none => []) ++ [r.expression]

/-- The `--variant` insertion the code actually performs for an optional
variant field: present and non-empty. -/
def variantArgs (v : Option String) : List String :=
  match v with
  | some s => if s = "" then [] else ["--variant", s]
  | none => []

/-- The `--variant` insertion for the required subtyping variant field:
non-empty. -/
def variantArgsStr (v : String) : List String :=
  if v = "" then [] else ["--variant", v]

/-! ## Credential header builder

The `switch (source.authType)` blocks in `initialize` and in
`loadWasmWithAuth` are identical; `authHeaders` is the list of header
entries the switch adds on top of the base `Accept: application/wasm`. -/

/-- Base64 alphabet used by `btoa`. -/
def base64Alphabet : List Char :=
  "ABCDEFGHIJKLMNOPQRSTUVWXYZabcdefghijklmnopqrstuvwxyz0123456789+/".toList

def b64Char (n : Nat) : Char := base64Alphabet.getD n '?'

/-- Standard base64 of a byte list, three bytes to four characters with
`=` padding. -/
def base64Chunks : List Nat → String
  | [] => ""
  | [a] => String.mk [b64Char (a / 4), b64Char (a % 4 * 16)] ++ "=="
  | [a, b] =>
    String.mk [b64Char (a / 4), b64Char (a % 4 * 16 + b / 16), b64Char (b % 16 * 4)] ++ "="
  | a :: b :: c :: rest =>
    String.mk [b64Char (a / 4), b64Char (a % 4 * 16 + b / 16),
      b64Char (b % 16 * 4 + c / 64), b64Char (c % 64)] ++ base64Chunks rest

/-- Model of `btoa`: base64 of the string's code points taken as bytes (callers
here only pass Latin-1 credentials, where code point = byte). -/
def btoa (s : String) : String := base64Chunks (s.toList.map Char.toNat)

/-- Model of `String.prototype.split(sep, 2)`: full split on the separator, then
keep only the first two segments (JS truncates, it does not keep the
remainder in the last segment).  Fuelled by the input length. -/
def splitOnListAux (sep : List Char) : Nat → List Char → List Char → List (List Char)
  | 0, acc, _ => [acc.reverse]
  | _, acc, [] => [acc.reverse]
  | fuel + 1, acc, c :: cs =>
    if (c :: cs).take sep.length = sep then
      acc.reverse :: splitOnListAux sep fuel [] ((c :: cs).drop sep.length)
    else splitOnListAux sep fuel (c :: acc) cs

/-- JS `String.prototype.split` with a non-empty string separator. -/
def jsSplit (s sep : String) : List String :=
  (splitOnListAux sep.toList (s.length + 1) [] s.toList).map String.mk

/-- The headers added by the authentication switch: bearer and basic add
an `Authorization` header only when the credential fields are truthy
(present and non-empty); the `header` scheme splits the stored string
with `split(': ', 2)` and adds the trimmed key/value only when both
segments are truthy; `presigned` and the default (`none` / absent) add
nothing. -/
def authHeaders (source : WasmSource) : List (String × String) :=
  match source.authType with
  | some AuthType.bearer =>
    match source.authToken with
    | some t => if t = "" then [] else [("Authorization", "Bearer " ++ t)]
    | none => []
  | some AuthType.basic =>
    match source.authUsername, source.authPassword with
    | some u, some p =>
      if u = "" ∨ p = "" then []
      else [("Authorization", "Basic " ++ btoa (u ++ ":" ++ p))]
    | _, _ => []
  | some AuthType.header =>
    match source.authHeader with
    | some h =>
      if h = "" then []
      else
        match (jsSplit h ": ").take 2 with
        | [k, v] => if k = "" ∨ v = "" then [] else [(jsTrim k, jsTrim v)]
        | _ => []
    | none => []
  | _ => []

/-- The `header`-scheme mapping as worded by claim C9: a single header
obtained by splitting the stored string on the **first** `": "`, the key
before it and the whole remainder after it as the value.  Kept solely for
comparison with `authHeaders`, which is translated from the code. -/
def authHeadersClaimHeaderCase (h : String) : List (String × String) :=
  match jsSplit h ": " with
  | [] => []
  | [_] => []
  | k :: rest => [(jsTrim k, jsTrim (String.intercalate ": " rest))]

/-! ## Engine state and the facade methods

External effects are abstracted into a `RunOracle`: whether the
fetch-and-compile of `initialize` succeeds, whether
`WebAssembly.instantiate` throws (and with what message), whether
`wasi.start` traps (and with what message), and the bytes the instance
writes to the line-buffered stdout sink. -/

structure EngineS where
  wasmSource : WasmSource
  wasmModule : Option Unit := none
  isInitialized : Bool := false
  outputBuffer : String := ""
  activeInstances : List Nat := []
  nextHandle : Nat := 0
deriving DecidableEq, Repr

def maxConcurrentInstances : Nat := 2

/-- Model of `updateWasmSource`: reset (discard module, clear active set, mark
uninitialized, adopt the new descriptor) iff `url` or any of the five
auth fields differs; otherwise leave the whole state untouched. -/
def updateWasmSourceM (s : EngineS) (newSource : WasmSource) : EngineS :=
  if s.wasmSource.url ≠ newSource.url ∨
      s.wasmSource.authType ≠ newSource.authType ∨
      s.wasmSource.authToken ≠ newSource.authToken ∨
      s.wasmSource.authHeader ≠ newSource.authHeader ∨
      s.wasmSource.authUsername ≠ newSource.authUsername ∨
      s.wasmSource.authPassword ≠ newSource.authPassword then
    { s with wasmSource := newSource, wasmModule := none,
             activeInstances := [], isInitialized := false }
  else s

/-- Configuration equality as the spec words it: url plus all auth fields. -/
def sameConfig (a b : WasmSource) : Prop :=
  a.url = b.url ∧ a.authType = b.authType ∧ a.authToken = b.authToken ∧
    a.authHeader = b.authHeader ∧ a.authUsername = b.authUsername ∧
    a.authPassword = b.authPassword

instance (a b : WasmSource) : Decidable (sameConfig a b) := by
  unfold sameConfig; infer_instance

/-- Model of `initialize`: memoized on `isInitialized`; on oracle success sets the
compiled module and the flag, on failure the `catch` converts the error
to `false` with the state unchanged.  The fetch (with `authHeaders`),
compile, and `Last-Modified` bookkeeping are abstracted into the oracle
bit. -/
def initializeM (s : EngineS) (fetchCompileOk : Bool) : Bool × EngineS :=
  if s.isInitialized then (true, s)
  else if fetchCompileOk then (true, { s with wasmModule := some (), isInitialized := true })
  else (false, s)

inductive PoolEvent where
  | register (h : Nat)
  | release (h : Nat)
deriving DecidableEq, Repr

/-- Model of `createInstance`: throws if no module is loaded; if the active count
is at or above the cap, sleeps once for 100ms (the returned `Nat` counts
these sleeps) and then proceeds without rechecking; instantiation either
throws (oracle `instErr`) or yields a fresh handle that is added to the
active set. -/
def createInstanceM (s : EngineS) (instErr : Option String) :
    Except String (EngineS × Nat × Nat) :=
  match s.wasmModule with
  | none => Except.error "WASM module not loaded"
  | some _ =>
    let delays := if maxConcurrentInstances ≤ s.activeInstances.length then 1 else 0
    match instErr with
    | some msg => Except.error msg
    | none =>
      Except.ok ({ s with
                    activeInstances := s.nextHandle :: s.activeInstances
                    nextHandle := s.nextHandle + 1 }, s.nextHandle, delays)

/-- Model of `cleanupInstance`: unconditionally remove the handle from the active
set. -/
def cleanupInstanceM (s : EngineS) (h : Nat) : EngineS :=
  { s with activeInstances := s.activeInstances.erase h }

structure RunOracle where
  initOk : Bool := true
  instErr : Option String := none
  startErr : Option String := none
  output : String := ""
deriving Repr

/-- Model of `runInference`.  Returns the call result (`Except.error` models an
exception propagating to the caller), the final engine state, and the
pool events of the call.  The lazy-init failure `throw` sits outside the
`try`, so it escapes; everything inside the `try` is caught and turned
into a `success := false` response; the `finally` releases the handle on
both the normal and the trapping path before decoding. -/
def runInferenceM (s : EngineS) (o : RunOracle) (req : InferenceRequest) :
    Except String InferenceResponse × EngineS × List PoolEvent :=
  let (ok, s1) := if s.isInitialized then (true, s) else initializeM s o.initOk
  if ok then
    match s1.wasmModule with
    | none => (Except.ok { success := false, error := some "WASM module not loaded" }, s1, [])
    | some _ =>
      let s2 := { s1 with outputBuffer := "" }
      let _argv := encodeInference req
      match createInstanceM s2 o.instErr with
      | Except.error msg => (Except.ok { success := false, error := some msg }, s2, [])
      | Except.ok (s3, h, _) =>
        let s4 := { s3 with outputBuffer := o.output }
        let s5 := cleanupInstanceM s4 h
        match o.startErr with
        | some msg =>
          (Except.ok { success := false, error := some msg }, s5,
            [PoolEvent.register h, PoolEvent.release h])
        | none =>
          (Except.ok (decodeRunOutput s5.outputBuffer), s5,
            [PoolEvent.register h, PoolEvent.release h])
  else (Except.error "WASM module not available", s1, [])

/-- Model of `runSubtyping`: same structure as `runInference` (the code is
duplicated in the source), with the subtyping argv. -/
def runSubtypingM (s : EngineS) (o : RunOracle) (req : SubtypingRequest) :
    Except String SubtypingResponse × EngineS × List PoolEvent :=
  let (ok, s1) := if s.isInitialized then (true, s) else initializeM s o.initOk
  if ok then
    match s1.wasmModule with
    | none => (Except.ok { success := false, error := some "WASM module not loaded" }, s1, [])
    | some _ =>
      let s2 := { s1 with outputBuffer := "" }
      let _argv := encodeSubtyping req
      match createInstanceM s2 o.instErr with
      | Except.error msg => (Except.ok { success := false, error := some msg }, s2, [])
      | Except.ok (s3, h, _) =>
        let s4 := { s3 with outputBuffer := o.output }
        let s5 := cleanupInstanceM s4 h
        match o.startErr with
        | some msg =>
          (Except.ok { success := false, error := some msg }, s5,
            [PoolEvent.register h, PoolEvent.release h])
        | none =>
          (Except.ok (decodeRunOutput s5.outputBuffer), s5,
            [PoolEvent.register h, PoolEvent.release h])
  else (Except.error "WASM module not available", s1, [])

/-- Model of `getMetadata`: same invocation shape, but its outer `catch` rethrows,
so instantiation errors, traps, and the decode failure all propagate as
`Except.error`. -/
def getMetadataM (s : EngineS) (o : RunOracle) :
    Except String Json × EngineS × List PoolEvent :=
  let (ok, s1) := if s.isInitialized then (true, s) else initializeM s o.initOk
  if ok then
    match s1.wasmModule with
    | none => (Except.error "WASM module not loaded", s1, [])
    | some _ =>
      let s2 := { s1 with outputBuffer := "" }
      let _argv := encodeMetadata
      match createInstanceM s2 o.instErr with
      | Except.error msg => (Except.error msg, s2, [])
      | Except.ok (s3, h, _) =>
        let s4 := { s3 with outputBuffer := o.output }
        let s5 := cleanupInstanceM s4 h
        match o.startErr with
        | some msg => (Except.error msg, s5, [PoolEvent.register h, PoolEvent.release h])
        | none =>
          (decodeMetaOutput s5.outputBuffer, s5, [PoolEvent.register h, PoolEvent.release h])
  else (Except.error "WASM module not available", s1, [])

/-! ## Pool operation sequences (for the concurrency-cap claim) -/

inductive PoolOp where
  | create
  | release (h : Nat)
deriving DecidableEq, Repr

/-- One pool operation: a `createInstance` that does not throw, or a
`release`. -/
def poolStep (s : EngineS) (op : PoolOp) : EngineS :=
  match op with
  | PoolOp.create =>
    match createInstanceM s none with
    | Except.ok (s', _, _) => s'
    | Except.error _ => s
  | PoolOp.release h => cleanupInstanceM s h

def runPoolOps (s : EngineS) (ops : List PoolOp) : EngineS := ops.foldl poolStep s

/-- Claim C1 as stated: along the whole operation sequence the active
count never exceeds the cap. -/
def capNeverExceeded (s : EngineS) (ops : List PoolOp) : Prop :=
  ∀ pre suf, ops = pre ++ suf →
    (runPoolOps s pre).activeInstances.length ≤ maxConcurrentInstances

/-! ## Single-flight grammar cache

`grammarCache` in the editor component: `data` is the `Loaded` payload,
`promiseId` identifies the in-flight shared promise (`Loading`), and
`loadCount` counts invocations of the underlying loader
(`wasmInference.requestTextMateGrammar`).  The check of `data`, the check
of `promise`, and the assignment of the new promise happen in one
synchronous segment of `loadTextMateGrammar` (no `await` between them),
so a caller's admission is one atomic step.  Grammar payloads are
abstracted as `Nat`. -/

inductive CallerObs where
  | cachedData (d : Nat)
  | awaitingLoad (p : Nat)
deriving DecidableEq, Repr

structure GrammarCacheS where
  promiseId : Option Nat := none
  data : Option Nat := none
  nextPromiseId : Nat := 0
  loadCount : Nat := 0
deriving DecidableEq, Repr

/-- One caller's atomic admission segment: reuse loaded data, else join
the in-flight promise, else create the promise (invoking the loader
exactly here). -/
def grammarGet (c : GrammarCacheS) : GrammarCacheS × CallerObs :=
  match c.data with
  | some d => (c, CallerObs.cachedData d)
  | none =>
    match c.promiseId with
    | some p => (c, CallerObs.awaitingLoad p)
    | none =>
      ({ c with
          promiseId := some c.nextPromiseId
          nextPromiseId := c.nextPromiseId + 1
          loadCount := c.loadCount + 1 }, CallerObs.awaitingLoad c.nextPromiseId)

/-- Admissions of `n` concurrent callers: since each admission segment is
atomic, any concurrent arrival order is some sequential order. -/
def grammarGetMany : GrammarCacheS → Nat → GrammarCacheS × List CallerObs
  | c, 0 => (c, [])
  | c, n + 1 =>
    let (c1, ob) := grammarGet c
    let (c2, obs) := grammarGetMany c1 n
    (c2, ob :: obs)

/-- Resolution of the shared promise: on success the wrapper stores the
data (the promise field is left in place); on failure the wrapper's
`catch` clears the promise and rethrows, so the cache reverts to empty. -/
def grammarResolve (c : GrammarCacheS) (outcome : Option Nat) : GrammarCacheS :=
  match outcome with
  | some d => { c with data := some d }
  | none => { c with promiseId := none }

/-! ## Concrete fixtures used by witnesses and counterexamples -/

deriving instance DecidableEq for Except

def srcA : WasmSource :=
  { id := "default", name := "Type Inference Zoo (Default)",
    url := "https://files.typ.how/zoo.wasm", authType := some AuthType.none,
    isLocal := some false, createdAt := 0 }

/-- Same configuration as `srcA` (url and auth fields equal), different
identity, display name and timestamps. -/
def srcARenamed : WasmSource :=
  { srcA with id := "17", name := "Renamed", createdAt := 99, lastUpdated := some "yesterday" }

def srcOtherUrl : WasmSource :=
  { srcA with url := "https://example.com/other.wasm" }

def engineFresh : EngineS := { wasmSource := srcA }

def engineReady : EngineS :=
  { wasmSource := srcA, wasmModule := some (), isInitialized := true }

/-- Engine with the active set already at the cap (two live handles). -/
def engineAtCap : EngineS :=
  { wasmSource := srcA, wasmModule := some (), isInitialized := true,
    activeInstances := [1, 0], nextHandle := 2 }

def reqId : InferenceRequest := { algorithm := "W", expression := "\\x.x" }

def sreqId : SubtypingRequest :=
  { algorithm := "S", variant := "", leftType := "Int", rightType := "Top" }

/-! ## Shared helper lemmas -/

/-- The inference/subtyping decoder always reports success (parse failure
falls back to text instead of failing). -/
theorem decodeRunOutput_success_eq (raw : String) : (decodeRunOutput raw).success = true := by
  simp only [decodeRunOutput]
  split <;> rfl

/-- The metadata decoder escalates a parse failure to an error. -/
theorem decodeMetaOutput_parse_fail (raw : String)
    (hp : parseJson (jsTrim raw) = Option.none) :
    decodeMetaOutput raw = Except.error "Failed to parse metadata JSON from WASM" := by
  unfold decodeMetaOutput
  rw [hp]

/-! ## Claim theorems -/

/-- C10: when the trimmed module output is the string "null" (valid JSON
parsing to `null`), `runInference` and `runSubtyping` return the text
fallback `\x7bsuccess: true, result: \x7btype: "null"\x7d, steps: []\x7d` rather than a
structured result containing null, because reading `.steps` of the parsed
null faults inside the parse branch and control falls to the fallback. -/
theorem null_output_text_fallback :
    (runInferenceM engineReady { output := "null\n" } reqId).1 =
        Except.ok { success := true, result := some (Json.obj [("type", Json.str "null")]),
                    steps := some (Json.arr []) } ∧
    (runSubtypingM engineReady { output := "null\n" } sreqId).1 =
        Except.ok { success := true, result := some (Json.obj [("type", Json.str "null")]),
                    steps := some (Json.arr []) } ∧
    parseJson (jsTrim "null\n") = some Json.null := by decide

/-- C4: `updateWasmSource` compares the new descriptor to the current one
on url plus the five auth fields; when all agree the whole engine state
is untouched (module, active set, initialized flag — regardless of id,
name or timestamp differences); when any differs the module is discarded,
the active set cleared, the engine reset to uninitialized and the new
descriptor adopted. -/
theorem updateWasmSource_config_comparison :
    ∀ (s : EngineS) (ns : WasmSource),
      (sameConfig s.wasmSource ns → updateWasmSourceM s ns = s) ∧
      (¬ sameConfig s.wasmSource ns →
        updateWasmSourceM s ns =
          { s with wasmSource := ns, wasmModule := Option.none,
                   activeInstances := [], isInitialized := false }) := by
  intro s ns
  constructor
  · intro h
    obtain ⟨h1, h2, h3, h4, h5, h6⟩ := h
    simp [updateWasmSourceM, h1, h2, h3, h4, h5, h6]
  · intro h
    have hc : s.wasmSource.url ≠ ns.url ∨ s.wasmSource.authType ≠ ns.authType ∨
        s.wasmSource.authToken ≠ ns.authToken ∨ s.wasmSource.authHeader ≠ ns.authHeader ∨
        s.wasmSource.authUsername ≠ ns.authUsername ∨
        s.wasmSource.authPassword ≠ ns.authPassword := by
      unfold sameConfig at h
      tauto
    simp only [updateWasmSourceM, if_pos hc]

/-- C4 witness: a descriptor differing only in id, name and timestamps is
a no-op on a live engine; a url change resets it. -/
theorem updateWasmSource_config_comparison_witness :
    updateWasmSourceM engineReady srcARenamed = engineReady ∧
    updateWasmSourceM engineReady srcOtherUrl =
      { engineReady with wasmSource := srcOtherUrl, wasmModule := Option.none,
                         activeInstances := [], isInitialized := false } := by
  constructor
  · exact (updateWasmSource_config_comparison engineReady srcARenamed).1 (by decide)
  · exact (updateWasmSource_config_comparison engineReady srcOtherUrl).2 (by decide)

/-- C6 counterexample: a present-but-empty variant field is dropped by
the JS truthiness test, while the claim's wording ("inserted iff a
variant is present") would insert `--variant ""`. -/
theorem encode_variant_present_cex :
    encodeInference { algorithm := "W", variant := some "", expression := "x" } =
      ["infer", "--typing", "W", "x"] ∧
    encodeInferenceClaim { algorithm := "W", variant := some "", expression := "x" } =
      ["infer", "--typing", "W", "--variant", "", "x"] ∧
    encodeInference { algorithm := "W", variant := some "", expression := "x" } ≠
      encodeInferenceClaim { algorithm := "W", variant := some "", expression := "x" } := by
  decide

/-- C6 amended: inference encodes to `infer --typing alg [--variant v]
expr` with the variant flag inserted iff the variant is present and
non-empty; subtyping encodes to `infer --subtyping alg [--variant v] l r`
with the flag inserted iff the (required) variant is non-empty; metadata
encodes to `infer --meta`; the options field is never encoded. -/
theorem encode_argv_rules :
    (∀ r : InferenceRequest,
        encodeInference r =
          ["infer", "--typing", r.algorithm] ++ variantArgs r.variant ++ [r.expression]) ∧
    (∀ r : SubtypingRequest,
        encodeSubtyping r =
          ["infer", "--subtyping", r.algorithm] ++ variantArgsStr r.variant ++
            [r.leftType, r.rightType]) ∧
    encodeMetadata = ["infer", "--meta"] ∧
    (∀ (r : InferenceRequest) (o : Option RequestOptions),
        encodeInference { r with options := o } = encodeInference r) ∧
    (∀ (r : SubtypingRequest) (o : Option RequestOptions),
        encodeSubtyping { r with options := o } = encodeSubtyping r) := by
  refine ⟨?_, ?_, rfl, ?_, ?_⟩
  · intro r
    rcases r with ⟨alg, v, e, o⟩
    cases v with
    | none => rfl
    | some s =>
      by_cases hs : s = "" <;> simp [encodeInference, variantArgs, hs]
  · intro r
    rcases r with ⟨alg, v, l, rt, o⟩
    by_cases hv : v = "" <;> simp [encodeSubtyping, variantArgsStr, hv]
  · intro r o
    rfl
  · intro r o
    rfl

/-- C5 counterexample: the code trims the buffer on both ends (JS
`.trim()`), not only trailing whitespace, and uses `|| []` (truthiness),
not `?? []`, for the steps field; a parsed `null` also falls back to text
instead of being wrapped.  The claim-worded decoder
`decodeRunOutputClaim` therefore disagrees with the code's decoder on a
leading-whitespace text output, on `\x7b"steps":0\x7d`, and on `null`. -/
theorem decode_run_output_claim_cex :
    decodeRunOutput " Int -> Int\n" =
      { success := true, result := some (Json.obj [("type", Json.str "Int -> Int")]),
        steps := some (Json.arr []) } ∧
    decodeRunOutputClaim " Int -> Int\n" =
      { success := true, result := some (Json.obj [("type", Json.str " Int -> Int")]),
        steps := some (Json.arr []) } ∧
    decodeRunOutput " Int -> Int\n" ≠ decodeRunOutputClaim " Int -> Int\n" ∧
    decodeRunOutput "\x7b\"steps\":0\x7d" ≠ decodeRunOutputClaim "\x7b\"steps\":0\x7d" ∧
    decodeRunOutput "null" ≠ decodeRunOutputClaim "null" := by
  decide

/-- C5 amended: decoding trims the buffer on both ends and parses it as
JSON; if parsing succeeds with a non-null value the result is
`\x7bsuccess: true, result: v, steps: v.steps if truthy else []\x7d` (JS `||`);
if parsing fails the result is the text fallback over the trimmed text;
the claim's two concrete examples hold as stated. -/
theorem decode_run_output_rules :
    (∀ raw v, parseJson (jsTrim raw) = some v → v ≠ Json.null →
        decodeRunOutput raw =
          { success := true
            result := some v
            steps := some (match jsGetField v "steps" with
                           | some s => if jsTruthy s then s else Json.arr []
                           | none => Json.arr []) }) ∧
    (∀ raw, parseJson (jsTrim raw) = Option.none →
        decodeRunOutput raw = textFallback (jsTrim raw)) ∧
    decodeRunOutput "\x7b\"type\":\"Int\"\x7d" =
      { success := true, result := some (Json.obj [("type", Json.str "Int")]),
        steps := some (Json.arr []) } ∧
    decodeRunOutput "Int -> Int" =
      { success := true, result := some (Json.obj [("type", Json.str "Int -> Int")]),
        steps := some (Json.arr []) } := by
  refine ⟨?_, ?_, by decide, by decide⟩
  · intro raw v hp hv
    simp only [decodeRunOutput, hp]
  · intro raw hp
    simp only [decodeRunOutput, hp]

/-- C5 witness: a structured output with a falsy steps field decodes to
empty steps; an unparseable output decodes to the text fallback. -/
theorem decode_run_output_rules_witness :
    decodeRunOutput "\x7b\"steps\":false\x7d" =
      { success := true, result := some (Json.obj [("steps", Json.bool false)]),
        steps := some (Json.arr []) } ∧
    decodeRunOutput "nope" = textFallback "nope" := by
  constructor
  · exact (decode_run_output_rules.1 "\x7b\"steps\":false\x7d"
      (Json.obj [("steps", Json.bool false)]) (by decide) (by decide)).trans (by decide)
  · exact (decode_run_output_rules.2.1 "nope" (by decide)).trans (by decide)

/-- C7: a metadata output that does not parse as JSON produces a
propagated error (through `getMetadataM`, whose outer catch rethrows),
while the inference/subtyping decoder never escalates a parse failure —
it always reports success. -/
theorem metadata_parse_failure_escalates :
    (∀ raw, parseJson (jsTrim raw) = Option.none →
        decodeMetaOutput raw = Except.error "Failed to parse metadata JSON from WASM") ∧
    (∀ (s : EngineS) (o : RunOracle), s.isInitialized = true → s.wasmModule = some () →
        o.instErr = Option.none → o.startErr = Option.none →
        parseJson (jsTrim o.output) = Option.none →
        (getMetadataM s o).1 = Except.error "Failed to parse metadata JSON from WASM") ∧
    (∀ raw, (decodeRunOutput raw).success = true) := by
  refine ⟨fun raw hp => decodeMetaOutput_parse_fail raw hp, ?_, decodeRunOutput_success_eq⟩
  intro s o hsi hm hie hse hp
  simp only [getMetadataM, hsi, if_pos, hm, createInstanceM, hie, hse]
  exact decodeMetaOutput_parse_fail o.output hp

/-- C7 witness: the unparseable output "oops" is escalated by the
metadata path and not by the inference decoder. -/
theorem metadata_parse_failure_escalates_witness :
    decodeMetaOutput "oops" = Except.error "Failed to parse metadata JSON from WASM" ∧
    (getMetadataM engineReady { output := "oops" }).1 =
      Except.error "Failed to parse metadata JSON from WASM" ∧
    (decodeRunOutput "oops").success = true := by
  refine ⟨metadata_parse_failure_escalates.1 "oops" (by decide),
    metadata_parse_failure_escalates.2.1 engineReady { output := "oops" } rfl rfl rfl rfl
      (by decide),
    metadata_parse_failure_escalates.2.2 "oops"⟩

/-- C9 counterexample: `split(': ', 2)` truncates — a stored header value
containing a second `": "` loses its tail, where the claim's "split on
the first `\": \"`" would keep it; and a bearer (or basic) scheme with an
empty credential produces no header at all, where the claim
unconditionally promises one. -/
theorem auth_header_builder_cex :
    authHeaders { id := "h", name := "h", url := "u", authType := some AuthType.header,
                  authHeader := some "X-Api-Key: abc: def", createdAt := 0 } =
      [("X-Api-Key", "abc")] ∧
    authHeadersClaimHeaderCase "X-Api-Key: abc: def" = [("X-Api-Key", "abc: def")] ∧
    authHeaders { id := "h", name := "h", url := "u", authType := some AuthType.header,
                  authHeader := some "X-Api-Key: abc: def", createdAt := 0 } ≠
      authHeadersClaimHeaderCase "X-Api-Key: abc: def" ∧
    authHeaders { id := "b", name := "b", url := "u", authType := some AuthType.bearer,
                  authToken := some "", createdAt := 0 } = [] ∧
    authHeaders { id := "p", name := "p", url := "u", authType := some AuthType.basic,
                  authUsername := some "user", authPassword := some "", createdAt := 0 } =
      [] := by
  decide

/-- C9 amended: no headers for `none`, absent, or `presigned` schemes;
`Authorization: Bearer token` for `bearer` with a non-empty token (no
header for an absent or empty token); `Authorization: Basic
base64(user:pass)` for `basic` with non-empty username and password; and
for `header`, the stored string is split on `": "` into at most two
segments (`split(': ', 2)` — content after a second separator is
discarded) and the trimmed key/value pair is added when both segments are
non-empty. -/
theorem auth_headers_by_scheme :
    (∀ src : WasmSource,
        src.authType = some AuthType.none ∨ src.authType = Option.none ∨
          src.authType = some AuthType.presigned →
        authHeaders src = []) ∧
    (∀ (src : WasmSource) (t : String), src.authType = some AuthType.bearer →
        src.authToken = some t → t ≠ "" →
        authHeaders src = [("Authorization", "Bearer " ++ t)]) ∧
    (∀ src : WasmSource, src.authType = some AuthType.bearer →
        src.authToken = Option.none ∨ src.authToken = some "" →
        authHeaders src = []) ∧
    (∀ (src : WasmSource) (u p : String), src.authType = some AuthType.basic →
        src.authUsername = some u → src.authPassword = some p → u ≠ "" → p ≠ "" →
        authHeaders src = [("Authorization", "Basic " ++ btoa (u ++ ":" ++ p))]) ∧
    (∀ (src : WasmSource) (h k v : String) (rest : List String),
        src.authType = some AuthType.header → src.authHeader = some h →
        jsSplit h ": " = k :: v :: rest → k ≠ "" → v ≠ "" →
        authHeaders src = [(jsTrim k, jsTrim v)]) := by
  refine ⟨?_, ?_, ?_, ?_, ?_⟩
  · intro src hty
    rcases hty with hty | hty | hty <;> simp [authHeaders, hty]
  · intro src t h1 h2 h3
    simp [authHeaders, h1, h2, h3]
  · intro src h1 h2
    rcases h2 with h2 | h2 <;> simp [authHeaders, h1, h2]
  · intro src u p h1 h2 h3 h4 h5
    simp [authHeaders, h1, h2, h3, h4, h5]
  · intro src h k v rest hty hah hsplit hk hv
    have hne : h ≠ "" := by
      intro he
      rw [he, show jsSplit "" ": " = [""] from rfl] at hsplit
      simp at hsplit
    simp only [authHeaders, hty, hah, if_neg hne, hsplit]
    rw [show (k :: v :: rest).take 2 = [k, v] from rfl]
    simp [hk, hv]

def srcBearerTok : WasmSource :=
  { id := "b", name := "b", url := "u", authType := some AuthType.bearer,
    authToken := some "tok", createdAt := 0 }

def srcBasicUP : WasmSource :=
  { id := "p", name := "p", url := "u", authType := some AuthType.basic,
    authUsername := some "user", authPassword := some "pass", createdAt := 0 }

def srcHeaderKV : WasmSource :=
  { id := "h", name := "h", url := "u", authType := some AuthType.header,
    authHeader := some "X-Key: V", createdAt := 0 }

/-- C9 witness: the four schemes at concrete credentials. -/
theorem auth_headers_by_scheme_witness :
    authHeaders srcA = [] ∧
    authHeaders srcBearerTok = [("Authorization", "Bearer tok")] ∧
    authHeaders srcBasicUP = [("Authorization", "Basic dXNlcjpwYXNz")] ∧
    authHeaders srcHeaderKV = [("X-Key", "V")] := by
  refine ⟨auth_headers_by_scheme.1 srcA (Or.inl rfl), ?_, ?_, ?_⟩
  · exact auth_headers_by_scheme.2.1 srcBearerTok "tok" rfl rfl (by decide)
  · exact (auth_headers_by_scheme.2.2.2.1 srcBasicUP "user" "pass" rfl rfl rfl (by decide)
      (by decide)).trans (by decide)
  · exact (auth_headers_by_scheme.2.2.2.2 srcHeaderKV "X-Key: V" "X-Key" "V" []
      rfl rfl (by decide) (by decide) (by decide)).trans (by decide)

/-- C1 counterexample: three concurrent `createInstance` calls with no
releases drive the active count to 3, over the cap of 2 — a creation
attempt made at the cap waits once and is then admitted over the cap
rather than retrying until a slot is free. -/
theorem pool_cap_exceeded_cex :
    ¬ capNeverExceeded engineReady [PoolOp.create, PoolOp.create, PoolOp.create] := by
  intro hc
  have h3 := hc [PoolOp.create, PoolOp.create, PoolOp.create] [] rfl
  exact absurd h3 (by decide)

/-- C1 amended: a `createInstance` call on a loaded module performs
exactly one fixed back-off delay when the active count is at or above the
cap (none otherwise) and is then admitted unconditionally — the new
handle is registered regardless of the active count, so the cap can be
exceeded. -/
theorem createInstance_admits_after_one_delay :
    ∀ s : EngineS, s.wasmModule = some () →
      createInstanceM s Option.none =
        Except.ok ({ s with
            activeInstances := s.nextHandle :: s.activeInstances
            nextHandle := s.nextHandle + 1 },
          s.nextHandle,
          if maxConcurrentInstances ≤ s.activeInstances.length then 1 else 0) := by
  intro s h
  unfold createInstanceM
  rw [h]

/-- C1 witness: at the cap (two active handles), a creation attempt
performs one delay and is admitted, reaching three active handles. -/
theorem createInstance_admits_after_one_delay_witness :
    createInstanceM engineAtCap Option.none =
      Except.ok ({ engineAtCap with activeInstances := [2, 1, 0], nextHandle := 3 }, 2, 1) := by
  exact (createInstance_admits_after_one_delay engineAtCap rfl).trans (by decide)

/-- Helper: a caller that finds a load in flight (promise set, no data)
joins it without touching the cache. -/
theorem grammarGet_joins (c : GrammarCacheS) (p : Nat) (hd : c.data = Option.none)
    (hp : c.promiseId = some p) : grammarGet c = (c, CallerObs.awaitingLoad p) := by
  unfold grammarGet
  rw [hd, hp]

/-- Helper: every caller arriving while the load is in flight joins the
same promise and the cache is unchanged. -/
theorem grammarGetMany_joins :
    ∀ (n : Nat) (c : GrammarCacheS) (p : Nat), c.data = Option.none → c.promiseId = some p →
      grammarGetMany c n = (c, List.replicate n (CallerObs.awaitingLoad p))
  | 0, c, p, _, _ => by simp [grammarGetMany]
  | n + 1, c, p, hd, hp => by
    simp [grammarGetMany, grammarGet_joins c p hd hp, grammarGetMany_joins n c p hd hp,
      List.replicate]

/-- C3: for any number n ≥ 1 of callers whose admissions interleave with
a load in flight, starting from the empty cache state: the loader is
invoked exactly once, every caller awaits the same shared promise, a
failed load reverts the cache to empty (promise cleared, no data) so a
later call may retry, and a successful load stores the shared data every
waiter receives. -/
theorem grammar_cache_single_flight :
    ∀ (c : GrammarCacheS) (n : Nat), c.data = Option.none → c.promiseId = Option.none →
      1 ≤ n →
      (grammarGetMany c n).1.loadCount = c.loadCount + 1 ∧
      (grammarGetMany c n).2 = List.replicate n (CallerObs.awaitingLoad c.nextPromiseId) ∧
      (grammarResolve (grammarGetMany c n).1 Option.none).promiseId = Option.none ∧
      (grammarResolve (grammarGetMany c n).1 Option.none).data = Option.none ∧
      (∀ d, (grammarResolve (grammarGetMany c n).1 (some d)).data = some d) := by
  intro c n hd hp hn
  cases n with
  | zero => exact absurd hn (by decide)
  | succ m =>
    have hstep : grammarGet c =
        ({ promiseId := some c.nextPromiseId, data := Option.none,
           nextPromiseId := c.nextPromiseId + 1, loadCount := c.loadCount + 1 },
          CallerObs.awaitingLoad c.nextPromiseId) := by
      unfold grammarGet
      rw [hd, hp]
    have hrest := grammarGetMany_joins m
      { promiseId := some c.nextPromiseId, data := Option.none,
        nextPromiseId := c.nextPromiseId + 1, loadCount := c.loadCount + 1 }
      c.nextPromiseId rfl rfl
    simp [grammarGetMany, hstep, hrest, grammarResolve, List.replicate]

/-- C3 witness: three callers on the empty cache—one load, all await
promise 0, failure reverts to empty, success stores the data. -/
theorem grammar_cache_single_flight_witness :
    (grammarGetMany {} 3).1.loadCount = 1 ∧
    (grammarGetMany {} 3).2 = List.replicate 3 (CallerObs.awaitingLoad 0) ∧
    (grammarResolve (grammarGetMany {} 3).1 Option.none).promiseId = Option.none ∧
    (grammarResolve (grammarGetMany {} 3).1 Option.none).data = Option.none ∧
    (grammarResolve (grammarGetMany {} 3).1 (some 7)).data = some 7 := by
  obtain ⟨h1, h2, h3, h4, h5⟩ := grammar_cache_single_flight {} 3 rfl rfl (by decide)
  exact ⟨h1, h2, h3, h4, h5 7⟩

/-- Recognizer for a non-thrown call result. -/
def exceptIsOk : Except String InferenceResponse → Bool
  | Except.ok _ => true
  | Except.error _ => false

/-- C2 counterexample: the lazy-init failure `throw new Error('WASM
module not available')` sits before the `try` block, so a failed
initialization propagates as an exception instead of being returned as a
typed `\x7bsuccess: false\x7d` response. -/
theorem runInference_throws_on_init_failure_cex :
    (runInferenceM engineFresh { initOk := false } reqId).1 =
        Except.error "WASM module not available" ∧
    (runSubtypingM engineFresh { initOk := false } sreqId).1 =
        Except.error "WASM module not available" := ⟨rfl, rfl⟩

/-- Hypothesis under which the lazy-init step of a run method leaves the
engine with a loaded module: either the engine is already initialized
with a compiled module in hand, or it is uninitialized and the
fetch-and-compile succeeds. -/
def enginePassesInit (s : EngineS) (o : RunOracle) : Prop :=
  (s.isInitialized = true ∧ s.wasmModule = some ()) ∨
    (s.isInitialized = false ∧ o.initOk = true)

/-- C2 amended: once the lazy initialization step has been passed, every
failure inside the request body is caught and returned as the typed
response `\x7bsuccess: false, error: message\x7d` carrying the thrown message —
an instantiation failure returns its message, a sandbox trap returns its
message (after the `finally` release), and the missing-module guard
returns "WASM module not loaded" — while the no-failure path returns the
decoded output; in all these cases the call does not throw.  But a failed
lazy initialization makes `runInference`/`runSubtyping` throw
`'WASM module not available'` to the caller. -/
theorem run_methods_catch_failures_after_init :
    (∀ (s : EngineS) (o : RunOracle) (r : InferenceRequest) (m : String),
        enginePassesInit s o → o.instErr = some m →
        (runInferenceM s o r).1 = Except.ok { success := false, error := some m }) ∧
    (∀ (s : EngineS) (o : RunOracle) (r : InferenceRequest) (m : String),
        enginePassesInit s o → o.instErr = Option.none → o.startErr = some m →
        (runInferenceM s o r).1 = Except.ok { success := false, error := some m }) ∧
    (∀ (s : EngineS) (o : RunOracle) (r : InferenceRequest),
        s.isInitialized = true → s.wasmModule = Option.none →
        (runInferenceM s o r).1 =
          Except.ok { success := false, error := some "WASM module not loaded" }) ∧
    (∀ (s : EngineS) (o : RunOracle) (r : InferenceRequest),
        enginePassesInit s o → o.instErr = Option.none → o.startErr = Option.none →
        (runInferenceM s o r).1 = Except.ok (decodeRunOutput o.output)) ∧
    (∀ (s : EngineS) (o : RunOracle) (r : InferenceRequest),
        s.isInitialized = true ∨ o.initOk = true →
        exceptIsOk (runInferenceM s o r).1 = true) ∧
    (∀ (s : EngineS) (o : RunOracle) (r : InferenceRequest),
        s.isInitialized = false → o.initOk = false →
        (runInferenceM s o r).1 = Except.error "WASM module not available") ∧
    (∀ (s : EngineS) (o : RunOracle) (r : SubtypingRequest) (m : String),
        enginePassesInit s o → o.instErr = some m →
        (runSubtypingM s o r).1 = Except.ok { success := false, error := some m }) ∧
    (∀ (s : EngineS) (o : RunOracle) (r : SubtypingRequest) (m : String),
        enginePassesInit s o → o.instErr = Option.none → o.startErr = some m →
        (runSubtypingM s o r).1 = Except.ok { success := false, error := some m }) ∧
    (∀ (s : EngineS) (o : RunOracle) (r : SubtypingRequest),
        s.isInitialized = true → s.wasmModule = Option.none →
        (runSubtypingM s o r).1 =
          Except.ok { success := false, error := some "WASM module not loaded" }) ∧
    (∀ (s : EngineS) (o : RunOracle) (r : SubtypingRequest),
        enginePassesInit s o → o.instErr = Option.none → o.startErr = Option.none →
        (runSubtypingM s o r).1 = Except.ok (decodeRunOutput o.output)) ∧
    (∀ (s : EngineS) (o : RunOracle) (r : SubtypingRequest),
        s.isInitialized = true ∨ o.initOk = true →
        exceptIsOk (runSubtypingM s o r).1 = true) ∧
    (∀ (s : EngineS) (o : RunOracle) (r : SubtypingRequest),
        s.isInitialized = false → o.initOk = false →
        (runSubtypingM s o r).1 = Except.error "WASM module not available") := by
  refine ⟨?_, ?_, ?_, ?_, ?_, ?_, ?_, ?_, ?_, ?_, ?_, ?_⟩
  · intro s o r m hpi hie
    rcases hpi with ⟨hsi, hm⟩ | ⟨hsi, hio⟩
    · simp [runInferenceM, hsi, hm, createInstanceM, hie]
    · simp [runInferenceM, initializeM, hsi, hio, createInstanceM, hie]
  · intro s o r m hpi hie hse
    rcases hpi with ⟨hsi, hm⟩ | ⟨hsi, hio⟩
    · simp [runInferenceM, hsi, hm, createInstanceM, cleanupInstanceM, hie, hse]
    · simp [runInferenceM, initializeM, hsi, hio, createInstanceM, cleanupInstanceM, hie, hse]
  · intro s o r hsi hm
    simp [runInferenceM, hsi, hm]
  · intro s o r hpi hie hse
    rcases hpi with ⟨hsi, hm⟩ | ⟨hsi, hio⟩
    · simp [runInferenceM, hsi, hm, createInstanceM, cleanupInstanceM, hie, hse]
    · simp [runInferenceM, initializeM, hsi, hio, createInstanceM, cleanupInstanceM, hie, hse]
  · intro s o r h
    cases hsi : s.isInitialized with
    | false =>
      have hio : o.initOk = true := by
        rcases h with h | h
        · rw [hsi] at h
          cases h
        · exact h
      rcases hie : o.instErr with _ | m
      · rcases hse : o.startErr with _ | m2 <;>
          simp [exceptIsOk, runInferenceM, initializeM, hsi, hio, createInstanceM,
            cleanupInstanceM, hie, hse]
      · simp [exceptIsOk, runInferenceM, initializeM, hsi, hio, createInstanceM, hie]
    | true =>
      cases hm : s.wasmModule with
      | none => simp [exceptIsOk, runInferenceM, hsi, hm]
      | some _ =>
        rcases hie : o.instErr with _ | m
        · rcases hse : o.startErr with _ | m2 <;>
            simp [exceptIsOk, runInferenceM, hsi, hm, createInstanceM,
              cleanupInstanceM, hie, hse]
        · simp [exceptIsOk, runInferenceM, hsi, hm, createInstanceM, hie]
  · intro s o r h1 h2
    simp [runInferenceM, initializeM, h1, h2]
  · intro s o r m hpi hie
    rcases hpi with ⟨hsi, hm⟩ | ⟨hsi, hio⟩
    · simp [runSubtypingM, hsi, hm, createInstanceM, hie]
    · simp [runSubtypingM, initializeM, hsi, hio, createInstanceM, hie]
  · intro s o r m hpi hie hse
    rcases hpi with ⟨hsi, hm⟩ | ⟨hsi, hio⟩
    · simp [runSubtypingM, hsi, hm, createInstanceM, cleanupInstanceM, hie, hse]
    · simp [runSubtypingM, initializeM, hsi, hio, createInstanceM, cleanupInstanceM, hie, hse]
  · intro s o r hsi hm
    simp [runSubtypingM, hsi, hm]
  · intro s o r hpi hie hse
    rcases hpi with ⟨hsi, hm⟩ | ⟨hsi, hio⟩
    · simp [runSubtypingM, hsi, hm, createInstanceM, cleanupInstanceM, hie, hse]
    · simp [runSubtypingM, initializeM, hsi, hio, createInstanceM, cleanupInstanceM, hie, hse]
  · intro s o r h
    cases hsi : s.isInitialized with
    | false =>
      have hio : o.initOk = true := by
        rcases h with h | h
        · rw [hsi] at h
          cases h
        · exact h
      rcases hie : o.instErr with _ | m
      · rcases hse : o.startErr with _ | m2 <;>
          simp [exceptIsOk, runSubtypingM, initializeM, hsi, hio, createInstanceM,
            cleanupInstanceM, hie, hse]
      · simp [exceptIsOk, runSubtypingM, initializeM, hsi, hio, createInstanceM, hie]
    | true =>
      cases hm : s.wasmModule with
      | none => simp [exceptIsOk, runSubtypingM, hsi, hm]
      | some _ =>
        rcases hie : o.instErr with _ | m
        · rcases hse : o.startErr with _ | m2 <;>
            simp [exceptIsOk, runSubtypingM, hsi, hm, createInstanceM,
              cleanupInstanceM, hie, hse]
        · simp [exceptIsOk, runSubtypingM, hsi, hm, createInstanceM, hie]
  · intro s o r h1 h2
    simp [runSubtypingM, initializeM, h1, h2]

/-- Engine marked initialized whose compiled module is gone (the state
the in-body `if (!this.wasmModule) throw` guards against). -/
def engineStale : EngineS := { wasmSource := srcA, isInitialized := true }

/-- C2 witness: on a live engine, an instantiation failure and a sandbox
trap each come back as the caught `\x7bsuccess: false, error: message\x7d`
response with the thrown message; the missing-module guard comes back as
its caught response; a clean run returns the decoded output without
throwing; and a fresh engine whose initialization fails observes the
thrown 'WASM module not available'. -/
theorem run_methods_catch_failures_after_init_witness :
    (runInferenceM engineReady { instErr := some "instantiate failed" } reqId).1 =
      Except.ok { success := false, error := some "instantiate failed" } ∧
    (runInferenceM engineReady { startErr := some "unreachable" } reqId).1 =
      Except.ok { success := false, error := some "unreachable" } ∧
    (runSubtypingM engineReady { startErr := some "unreachable" } sreqId).1 =
      Except.ok { success := false, error := some "unreachable" } ∧
    (runInferenceM engineStale {} reqId).1 =
      Except.ok { success := false, error := some "WASM module not loaded" } ∧
    (runInferenceM engineReady { output := "\"Int\"" } reqId).1 =
      Except.ok (decodeRunOutput "\"Int\"") ∧
    (runInferenceM engineFresh { initOk := false } reqId).1 =
      Except.error "WASM module not available" ∧
    (runSubtypingM engineFresh { initOk := false } sreqId).1 =
      Except.error "WASM module not available" := by
  refine ⟨run_methods_catch_failures_after_init.1 engineReady _ reqId "instantiate failed"
      (Or.inl ⟨rfl, rfl⟩) rfl,
    run_methods_catch_failures_after_init.2.1 engineReady _ reqId "unreachable"
      (Or.inl ⟨rfl, rfl⟩) rfl rfl,
    run_methods_catch_failures_after_init.2.2.2.2.2.2.2.1 engineReady _ sreqId "unreachable"
      (Or.inl ⟨rfl, rfl⟩) rfl rfl,
    run_methods_catch_failures_after_init.2.2.1 engineStale {} reqId rfl rfl,
    run_methods_catch_failures_after_init.2.2.2.1 engineReady _ reqId
      (Or.inl ⟨rfl, rfl⟩) rfl rfl,
    run_methods_catch_failures_after_init.2.2.2.2.2.1 engineFresh _ reqId rfl rfl,
    run_methods_catch_failures_after_init.2.2.2.2.2.2.2.2.2.2.2 engineFresh _ sreqId rfl rfl⟩

/-- C8: in every invocation (inference, subtyping, or metadata) in which
an instance was created and registered, the handle is released exactly
once before the call returns — the `finally` removes it whether the
sandboxed execution completes or traps, and decode runs only after the
release — and the active set returns to its pre-call value. -/
theorem handle_released_exactly_once :
    ∀ (s : EngineS) (o : RunOracle) (ri : InferenceRequest) (rs : SubtypingRequest) (h : Nat),
      (PoolEvent.register h ∈ (runInferenceM s o ri).2.2 →
        (runInferenceM s o ri).2.2.count (PoolEvent.release h) = 1 ∧
        (runInferenceM s o ri).2.1.activeInstances = s.activeInstances) ∧
      (PoolEvent.register h ∈ (runSubtypingM s o rs).2.2 →
        (runSubtypingM s o rs).2.2.count (PoolEvent.release h) = 1 ∧
        (runSubtypingM s o rs).2.1.activeInstances = s.activeInstances) ∧
      (PoolEvent.register h ∈ (getMetadataM s o).2.2 →
        (getMetadataM s o).2.2.count (PoolEvent.release h) = 1 ∧
        (getMetadataM s o).2.1.activeInstances = s.activeInstances) := by
  intro s o ri rs h
  refine ⟨?_, ?_, ?_⟩
  · cases hsi : s.isInitialized with
    | false =>
      cases hio : o.initOk with
      | false =>
        intro hmem
        simp [runInferenceM, initializeM, hsi, hio] at hmem
      | true =>
        rcases hie : o.instErr with _ | m
        · rcases hse : o.startErr with _ | m2 <;>
            · intro hmem
              simp [runInferenceM, initializeM, hsi, hio, createInstanceM,
                cleanupInstanceM, hie, hse] at hmem
              subst hmem
              simp [runInferenceM, initializeM, hsi, hio, createInstanceM,
                cleanupInstanceM, hie, hse, List.count_cons, List.erase_cons_head]
        · intro hmem
          simp [runInferenceM, initializeM, hsi, hio, createInstanceM, hie] at hmem
    | true =>
      cases hm : s.wasmModule with
      | none =>
        intro hmem
        simp [runInferenceM, hsi, hm] at hmem
      | some _ =>
        rcases hie : o.instErr with _ | m
        · rcases hse : o.startErr with _ | m2 <;>
            · intro hmem
              simp [runInferenceM, hsi, hm, createInstanceM,
                cleanupInstanceM, hie, hse] at hmem
              subst hmem
              simp [runInferenceM, hsi, hm, createInstanceM,
                cleanupInstanceM, hie, hse, List.count_cons, List.erase_cons_head]
        · intro hmem
          simp [runInferenceM, hsi, hm, createInstanceM, hie] at hmem
  · cases hsi : s.isInitialized with
    | false =>
      cases hio : o.initOk with
      | false =>
        intro hmem
        simp [runSubtypingM, initializeM, hsi, hio] at hmem
      | true =>
        rcases hie : o.instErr with _ | m
        · rcases hse : o.startErr with _ | m2 <;>
            · intro hmem
              simp [runSubtypingM, initializeM, hsi, hio, createInstanceM,
                cleanupInstanceM, hie, hse] at hmem
              subst hmem
              simp [runSubtypingM, initializeM, hsi, hio, createInstanceM,
                cleanupInstanceM, hie, hse, List.count_cons, List.erase_cons_head]
        · intro hmem
          simp [runSubtypingM, initializeM, hsi, hio, createInstanceM, hie] at hmem
    | true =>
      cases hm : s.wasmModule with
      | none =>
        intro hmem
        simp [runSubtypingM, hsi, hm] at hmem
      | some _ =>
        rcases hie : o.instErr with _ | m
        · rcases hse : o.startErr with _ | m2 <;>
            · intro hmem
              simp [runSubtypingM, hsi, hm, createInstanceM,
                cleanupInstanceM, hie, hse] at hmem
              subst hmem
              simp [runSubtypingM, hsi, hm, createInstanceM,
                cleanupInstanceM, hie, hse, List.count_cons, List.erase_cons_head]
        · intro hmem
          simp [runSubtypingM, hsi, hm, createInstanceM, hie] at hmem
  · cases hsi : s.isInitialized with
    | false =>
      cases hio : o.initOk with
      | false =>
        intro hmem
        simp [getMetadataM, initializeM, hsi, hio] at hmem
      | true =>
        rcases hie : o.instErr with _ | m
        · rcases hse : o.startErr with _ | m2 <;>
            · intro hmem
              simp [getMetadataM, initializeM, hsi, hio, createInstanceM,
                cleanupInstanceM, hie, hse] at hmem
              subst hmem
              simp [getMetadataM, initializeM, hsi, hio, createInstanceM,
                cleanupInstanceM, hie, hse, List.count_cons, List.erase_cons_head]
        · intro hmem
          simp [getMetadataM, initializeM, hsi, hio, createInstanceM, hie] at hmem
    | true =>
      cases hm : s.wasmModule with
      | none =>
        intro hmem
        simp [getMetadataM, hsi, hm] at hmem
      | some _ =>
        rcases hie : o.instErr with _ | m
        · rcases hse : o.startErr with _ | m2 <;>
            · intro hmem
              simp [getMetadataM, hsi, hm, createInstanceM,
                cleanupInstanceM, hie, hse] at hmem
              subst hmem
              simp [getMetadataM, hsi, hm, createInstanceM,
                cleanupInstanceM, hie, hse, List.count_cons, List.erase_cons_head]
        · intro hmem
          simp [getMetadataM, hsi, hm, createInstanceM, hie] at hmem

/-- C8 witness: a successful inference on a live engine registers handle
0 and releases it exactly once, restoring the active set. -/
theorem handle_released_exactly_once_witness :
    (runInferenceM engineReady {} reqId).2.2.count (PoolEvent.release 0) = 1 ∧
    (runInferenceM engineReady {} reqId).2.1.activeInstances = engineReady.activeInstances := by
  exact (handle_released_exactly_once engineReady {} reqId sreqId 0).1 (by decide)


end TypHow
